import Mathlib

set_option maxRecDepth 4096

/-!
Verification development for the clinical-billing automation repository.

The definitions below are shallow embeddings of the Python sources:
  * `Billing.Json`, `Billing.jsonParse`     — the JSON fragment produced by
    `json.loads` on the payloads this program handles (objects, arrays,
    strings, integers, booleans, null; floating-point literals are outside
    the modelled fragment and are rejected by the decoder),
  * `Billing.parse_json_response`           — `bedrock_cpt_predictor.parse_json_response`,
  * `Billing.convertItem` / `Billing.finalize` / `Billing.getPredicted`
                                             — `cpt_population.get_predicted_cpt_codes`,
  * `Billing.tbProbe` / `Billing.tbLoop`    — the retry loop of
    `test_bedrock_local.test_bedrock_prediction` (lines 198-281),
  * `Billing.RE` / `Billing.reSearch` / `Billing.extractChars`
                                             — `NotesHandler.extract_clinical_notes_from_html`
    and `NotesHandler._clean_html_content` from `notes_handler.py`.

Python strings are modelled as `List Char` (one element per code point, so
`len` is `List.length`); machine-level details (encodings, interning) play
no role in the verified properties.
-/

namespace Billing

/-- Model of the values produced by Python's `json.loads` on the payloads
this program handles.  `num` models Python `int`. -/
inductive Json : Type where
  | null : Json
  | bool (b : Bool) : Json
  | num (n : Int) : Json
  | str (s : List Char) : Json
  | arr (l : List Json) : Json
  | obj (kvs : List (List Char × Json)) : Json

/-- Python truthiness (`bool(v)`) for modelled JSON values: `None`, `False`,
`0`, `""`, `[]` and `{}` are falsy, everything else truthy. -/
def truthy : Json → Bool
  | .null => false
  | .bool b => b
  | .num n => n ≠ 0
  | .str s => !s.isEmpty
  | .arr l => !l.isEmpty
  | .obj kvs => !kvs.isEmpty

/-- Python `len(v)` for modelled JSON values; `none` models the `TypeError`
raised on values without a length (numbers, booleans, `None`). -/
def pyLen : Json → Option Nat
  | .str s => some s.length
  | .arr l => some l.length
  | .obj kvs => some kvs.length
  | _ => none

/-- Python `a or b`: the left operand if truthy, otherwise the right. -/
def pyOr (a b : Json) : Json := if truthy a then a else b

/-- Assoc-list lookup for modelled dicts (`d[k]` / `k in d` probing). -/
def jlookup (kvs : List (List Char × Json)) (k : List Char) : Option Json :=
  match kvs with
  | [] => none
  | (k', v) :: rest => if k' = k then some v else jlookup rest k

/-- Python `d.get(k)`: the stored value, or `None` when the key is absent. -/
def jget (kvs : List (List Char × Json)) (k : List Char) : Json :=
  (jlookup kvs k).getD .null

/-- Python `d.get(k, '')`: the stored value, or `''` when the key is absent. -/
def jgetD (kvs : List (List Char × Json)) (k : List Char) : Json :=
  (jlookup kvs k).getD (.str [])

/-- Whitespace characters of Python's `str.strip` / `\s` (ASCII range). -/
def isPySpace (c : Char) : Bool :=
  c = ' ' ∨ c = '\t' ∨ c = '\n' ∨ c = '\r' ∨ c = '\x0b' ∨ c = '\x0c'

/-- Python `s.strip()`: drop whitespace from both ends. -/
def pystrip (l : List Char) : List Char :=
  ((l.dropWhile isPySpace).reverse.dropWhile isPySpace).reverse

/-- Decimal digits of a natural number (most significant first). -/
def natDigits (fuel n : Nat) : List Char :=
  match fuel with
  | 0 => []
  | fuel + 1 =>
    if n < 10 then [Char.ofNat (48 + n)]
    else natDigits fuel (n / 10) ++ [Char.ofNat (48 + n % 10)]

/-- Join with `", "` separators. -/
def joinCommaSep : List (List Char) → List Char
  | [] => []
  | [x] => x
  | x :: y :: rest => x ++ ',' :: ' ' :: joinCommaSep (y :: rest)

mutual

/-- Python `str(v)` for modelled JSON values, as used by the missing-code
probe (`str(cpt_code_value).strip()`).  Container contents are rendered
up to element quoting (Python shows reprs of nested elements); the
development only inspects these renderings through their surrounding
brackets, which are exact. -/
def pyStr : Json → List Char
  | .null => "None".data
  | .bool true => "True".data
  | .bool false => "False".data
  | .num n =>
    if n < 0 then '-' :: natDigits (n.natAbs + 1) n.natAbs
    else natDigits (n.natAbs + 1) n.natAbs
  | .str s => s
  | .arr l => '[' :: joinCommaSep (pyStrList l) ++ [']']
  | .obj kvs => '\x7b' :: joinCommaSep (pyStrKVs kvs) ++ ['\x7d']

/-- Renderings of the elements of a list value (helper of `pyStr`). -/
def pyStrList : List Json → List (List Char)
  | [] => []
  | v :: rest => pyStr v :: pyStrList rest

/-- Renderings of the entries of a dict value. -/
def pyStrKVs : List (List Char × Json) → List (List Char)
  | [] => []
  | (k, v) :: rest => (k ++ ':' :: ' ' :: pyStr v) :: pyStrKVs rest

end

/- ------------------------------------------------------------------
JSON decoding (`json.loads` on the modelled fragment).
------------------------------------------------------------------ -/

/-- JSON structural whitespace. -/
def isJsonWs (c : Char) : Bool := c = ' ' ∨ c = '\t' ∨ c = '\n' ∨ c = '\r'

/-- Hex digit value, if any. -/
def hexVal (c : Char) : Option Nat :=
  if '0' ≤ c ∧ c ≤ '9' then some (c.toNat - 48)
  else if 'a' ≤ c ∧ c ≤ 'f' then some (c.toNat - 87)
  else if 'A' ≤ c ∧ c ≤ 'F' then some (c.toNat - 55)
  else none

/-- Decode the body of a JSON string literal (after the opening quote),
returning the decoded characters and the input following the closing
quote.  Raw control characters are rejected, as in strict `json.loads`. -/
def pString (fuel : Nat) (l : List Char) : Option (List Char × List Char) :=
  match fuel, l with
  | 0, _ => none
  | _, [] => none
  | fuel + 1, c :: rest =>
    if c = '"' then some ([], rest)
    else if c = '\\' then
      match rest with
      | [] => none
      | e :: rest' =>
        let cont (d : Char) (r : List Char) : Option (List Char × List Char) :=
          (pString fuel r).map (fun p => (d :: p.1, p.2))
        if e = '"' then cont '"' rest'
        else if e = '\\' then cont '\\' rest'
        else if e = '/' then cont '/' rest'
        else if e = 'b' then cont '\x08' rest'
        else if e = 'f' then cont '\x0c' rest'
        else if e = 'n' then cont '\n' rest'
        else if e = 'r' then cont '\r' rest'
        else if e = 't' then cont '\t' rest'
        else if e = 'u' then
          match rest' with
          | h1 :: h2 :: h3 :: h4 :: rest'' =>
            match hexVal h1, hexVal h2, hexVal h3, hexVal h4 with
            | some a, some b, some c3, some d4 =>
              cont (Char.ofNat (((a * 16 + b) * 16 + c3) * 16 + d4)) rest''
            | _, _, _, _ => none
          | _ => none
        else none
    else if c.toNat < 32 then none
    else (pString fuel rest).map (fun p => (c :: p.1, p.2))

/-- Decode a run of decimal digits. -/
def pDigits (l : List Char) : List Char × List Char :=
  (l.takeWhile (fun c => '0' ≤ c ∧ c ≤ '9'), l.dropWhile (fun c => '0' ≤ c ∧ c ≤ '9'))

/-- Digits to a natural number. -/
def digitsToNat (ds : List Char) : Nat :=
  ds.foldl (fun acc c => acc * 10 + (c.toNat - 48)) 0

/-- Insert a key/value pair with Python-dict semantics: an existing key is
overwritten in place, a new key is appended. -/
def objInsert (kvs : List (List Char × Json)) (k : List Char) (v : Json) :
    List (List Char × Json) :=
  match kvs with
  | [] => [(k, v)]
  | (k', v') :: rest =>
    if k' = k then (k', v) :: rest else (k', v') :: objInsert rest k v

mutual

/-- Decode a single JSON value, returning it and the remaining input. -/
def pVal (fuel : Nat) (l : List Char) : Option (Json × List Char) :=
  match fuel with
  | 0 => none
  | fuel + 1 =>
    match l.dropWhile isJsonWs with
    | [] => none
    | c :: rest =>
      if c = '"' then (pString fuel rest).map (fun p => (.str p.1, p.2))
      else if c = '\x7b' then
        match (rest.dropWhile isJsonWs) with
        | '\x7d' :: rest' => some (.obj [], rest')
        | _ => pMembers fuel rest []
      else if c = '[' then
        match (rest.dropWhile isJsonWs) with
        | ']' :: rest' => some (.arr [], rest')
        | _ => pElems fuel rest []
      else if c = 't' then
        match rest with
        | 'r' :: 'u' :: 'e' :: rest' => some (.bool true, rest')
        | _ => none
      else if c = 'f' then
        match rest with
        | 'a' :: 'l' :: 's' :: 'e' :: rest' => some (.bool false, rest')
        | _ => none
      else if c = 'n' then
        match rest with
        | 'u' :: 'l' :: 'l' :: rest' => some (.null, rest')
        | _ => none
      else if c = '-' then
        match pDigits rest with
        | ([], _) => none
        | (ds, rest') =>
          match rest' with
          | '.' :: _ => none
          | 'e' :: _ => none
          | 'E' :: _ => none
          | _ => some (.num (-(digitsToNat ds : Int)), rest')
      else if '0' ≤ c ∧ c ≤ '9' then
        match pDigits (c :: rest) with
        | (ds, rest') =>
          match rest' with
          | '.' :: _ => none
          | 'e' :: _ => none
          | 'E' :: _ => none
          | _ => some (.num (digitsToNat ds), rest')
      else none

/-- Decode the members of a JSON object (after the opening brace). -/
def pMembers (fuel : Nat) (l : List Char) (acc : List (List Char × Json)) :
    Option (Json × List Char) :=
  match fuel with
  | 0 => none
  | fuel + 1 =>
    match l.dropWhile isJsonWs with
    | '"' :: rest =>
      match pString fuel rest with
      | none => none
      | some (k, rest') =>
        match rest'.dropWhile isJsonWs with
        | ':' :: rest'' =>
          match pVal fuel rest'' with
          | none => none
          | some (v, rest3) =>
            let acc' := objInsert acc k v
            match rest3.dropWhile isJsonWs with
            | ',' :: rest4 => pMembers fuel rest4 acc'
            | '\x7d' :: rest4 => some (.obj acc', rest4)
            | _ => none
        | _ => none
    | _ => none

/-- Decode the elements of a JSON array (after the opening bracket). -/
def pElems (fuel : Nat) (l : List Char) (acc : List Json) :
    Option (Json × List Char) :=
  match fuel with
  | 0 => none
  | fuel + 1 =>
    match pVal fuel l with
    | none => none
    | some (v, rest) =>
      match rest.dropWhile isJsonWs with
      | ',' :: rest' => pElems fuel rest' (acc ++ [v])
      | ']' :: rest' => some (.arr (acc ++ [v]), rest')
      | _ => none

end

/-- Model of `json.loads` on the handled fragment: decode one document and
require only whitespace after it; `none` models `JSONDecodeError`. -/
def jsonParse (l : List Char) : Option Json :=
  match pVal (2 * l.length + 8) l with
  | none => none
  | some (v, rest) => if rest.dropWhile isJsonWs = [] then some v else none

/- ------------------------------------------------------------------
ResponseParser: `bedrock_cpt_predictor.parse_json_response`.
------------------------------------------------------------------ -/

/-- Characters up to and including the first occurrence of `close`
(the lazy tail of the regex `\[.*?\]` once the opening bracket matched). -/
def spanTo (close : Char) : List Char → Option (List Char)
  | [] => none
  | c :: rest => if c = close then some [c] else (spanTo close rest).map (c :: ·)

/-- Leftmost-lazy match of `open.*?close` with DOTALL semantics, as in
`re.search(r'\[.*?\]', s, re.DOTALL)`: the engine tries each start
position in order; a start matches iff it holds `open` with some `close`
after it, and the lazy body stops at the first such `close`. -/
def firstSpan (o c : Char) : List Char → Option (List Char)
  | [] => none
  | ch :: rest =>
    if ch = o then
      match spanTo c rest with
      | some inner => some (ch :: inner)
      | none => firstSpan o c rest
    else firstSpan o c rest

/-- Embedding of `parse_json_response` (bedrock_cpt_predictor.py:82-114):
falsy input gives `None`; otherwise strip, locate the first lazy
bracketed substring (array first, object second) and JSON-decode it,
converting decode errors to `None`. -/
def parseChars (l : List Char) : Option Json :=
  if l = [] then none
  else
    match firstSpan '[' ']' (pystrip l) with
    | some m => jsonParse m
    | none =>
      match firstSpan '\x7b' '\x7d' (pystrip l) with
      | some m => jsonParse m
      | none => none

/-- String-level wrapper of `parse_json_response`. -/
def parse_json_response (s : String) : Option Json := parseChars s.data

/- ------------------------------------------------------------------
CodingRecordNormalizer: the per-item conversion of
`cpt_population.get_predicted_cpt_codes` (lines 120-130).
------------------------------------------------------------------ -/

/-- Canonical coding record built by the normalizer.  Field values are
copied verbatim from the raw entry, so they remain JSON values. -/
structure CodingRecord where
  code : Json
  modifier1 : Json
  modifier2 : Json
  description : Json

/-- Embedding of the item conversion (cpt_population.py:122-129):
`item.get('cpt') or item.get('cptCode') or item.get('code') or ''`
for the code, and `item.get(k, '')` for the remaining fields. -/
def convertItem (kvs : List (List Char × Json)) : CodingRecord :=
  { code := pyOr (pyOr (pyOr (jget kvs "cpt".data) (jget kvs "cptCode".data))
                       (jget kvs "code".data)) (.str [])
  , modifier1 := jgetD kvs "modifier1".data
  , modifier2 := jgetD kvs "modifier2".data
  , description := jgetD kvs "description".data }

/-- Convert every item of a direct-array payload.  A non-dict item makes
`item.get` raise `AttributeError` (caught by the function's outer
handler), modelled as `none`. -/
def convertAll : List Json → Option (List CodingRecord)
  | [] => some []
  | .obj kvs :: rest => (convertAll rest).map (convertItem kvs :: ·)
  | _ => none

/-- Possible results of `get_predicted_cpt_codes`: Python `None`, the list
of converted records (direct-array payload), or the verbatim nested value
of an object payload. -/
inductive PredOut : Type where
  | noneR : PredOut
  | records (rs : List CodingRecord) : PredOut
  | rawVal (v : Json) : PredOut

/-- The `if cpt_codes and len(cpt_codes) > 0` gate applied to the verbatim
nested value of an object payload. -/
def finishRaw (v : Json) : PredOut :=
  if ¬ truthy v then .noneR
  else
    match pyLen v with
    | none => .noneR
    | some n => if n > 0 then .rawVal v else .noneR

/-- The direct-array branch of the final parse: convert every item and
apply the `if cpt_codes and len(cpt_codes) > 0` gate. -/
def finalizeArr (items : List Json) : PredOut :=
  match convertAll items with
  | none => .noneR
  | some recs =>
    if (!recs.isEmpty) = true ∧ recs.length > 0 then .records recs else .noneR

/-- The object branch of the final parse: the nested `cpt_codes` (or
`codes`) value verbatim, through the trailing gate; with neither key
the initial empty list falls through the gate to `None`. -/
def finalizeObj (kvs : List (List Char × Json)) : PredOut :=
  match jlookup kvs "cpt_codes".data with
  | some v => finishRaw v
  | none =>
    match jlookup kvs "codes".data with
    | some v => finishRaw v
    | none => .noneR

/-- The `if parsed_json:` body of the final parse. -/
def finalizeVal (p : Json) : PredOut :=
  if ¬ truthy p then .noneR
  else
    match p with
    | .arr items => finalizeArr items
    | .obj kvs => finalizeObj kvs
    | _ => .noneR

/-- Embedding of the final-parse section of `get_predicted_cpt_codes`
(cpt_population.py:112-162): truthiness gate on the parsed payload,
per-item conversion for a direct array, verbatim extraction of
`cpt_codes`/`codes` for an object, and the trailing
`if cpt_codes and len(cpt_codes) > 0` gate (a `len` TypeError on an
unsized value is caught by the outer handler, yielding `None`). -/
def finalize : Option Json → PredOut
  | none => .noneR
  | some p => finalizeVal p

/- ------------------------------------------------------------------
PredictionOrchestrator, variant 1: the retry loop of
`cpt_population.get_predicted_cpt_codes` (lines 56-107).
------------------------------------------------------------------ -/

/-- The probe parse of the cpt_population retry loop (lines 72-84): count
the entries of the parsed payload.  `none` models a `TypeError` from
`len` on an unsized nested value (caught by the outer handler). -/
def cpProbe (s : List Char) : Option Nat :=
  match parseChars s with
  | none => some 0
  | some p =>
    if ¬ truthy p then some 0
    else
      match p with
      | .arr l => some l.length
      | .obj kvs =>
        match jlookup kvs "cpt_codes".data with
        | some v => pyLen v
        | none =>
          match jlookup kvs "codes".data with
          | some v => pyLen v
          | none => some 0
      | _ => some 0

/-- Outcome of a retry loop: normal termination (break or exhaustion) with
the number of service calls made and the final value of
`predicted_codes_text`, or an exception escaping the loop. -/
inductive LoopOut : Type where
  | normal (calls : Nat) (lastText : Option String) : LoopOut
  | exn (calls : Nat) : LoopOut
deriving Repr, DecidableEq

/-- One pass of the cpt_population retry loop (cpt_population.py:59-103):
each iteration calls the service, re-assigns `predicted_codes_text`,
skips falsy responses, probes the rest, and breaks as soon as the probe
count reaches `min_expected_codes = 4`. -/
def cpGo (svc : Nat → Option String) : Nat → Nat → Option String → LoopOut
  | 0, idx, last => .normal idx last
  | r + 1, idx, _ =>
    match svc idx with
    | none => cpGo svc r (idx + 1) none
    | some s =>
      if s.data = [] then cpGo svc r (idx + 1) (some s)
      else
        match cpProbe s.data with
        | none => .exn (idx + 1)
        | some cnt =>
          if 4 ≤ cnt then .normal (idx + 1) (some s)
          else cpGo svc r (idx + 1) (some s)

/-- The cpt_population retry loop run from the first attempt. -/
def runLoopCP (svc : Nat → Option String) (maxRetries : Nat) : LoopOut :=
  cpGo svc maxRetries 0 none

/-- The post-loop tail of `get_predicted_cpt_codes`: the falsy-text gate
(`if not predicted_codes_text`) and the final parse, paired with the
number of service calls made. -/
def afterLoop (c : Nat) (last : Option String) : Nat × PredOut :=
  match last with
  | none => (c, .noneR)
  | some s => if s.data = [] then (c, .noneR) else (c, finalize (parseChars s.data))

/-- Embedding of `get_predicted_cpt_codes` (cpt_population.py:20-167) with
the prediction service abstracted as the per-attempt response `svc`:
the insufficient-input gate, the retry loop with `max_retries = 3`, and
the post-loop tail.  Returns the number of service calls made together
with the function's result. -/
def getPredicted (notes : String) (svc : Nat → Option String) : Nat × PredOut :=
  if notes.data = [] ∨ (pystrip notes.data).length < 50 then (0, .noneR)
  else
    match runLoopCP svc 3 with
    | .exn c => (c, .noneR)
    | .normal c last => afterLoop c last

/- ------------------------------------------------------------------
PredictionOrchestrator, variant 2: the retry loop of
`test_bedrock_local.test_bedrock_prediction` (lines 198-281), whose
acceptance check also counts entries missing a code value.
------------------------------------------------------------------ -/

/-- Whether `str(v).strip()` is empty — the missing-code test applied to a
resolved code value (test_bedrock_local.py:230). -/
def strStripEmpty (v : Json) : Bool := pystrip (pyStr v) = []

/-- Whether a parsed entry is counted as missing its code value: dict
entries resolve `cpt`/`cptCode`/`code` in order (defaulting to `''`)
and are missing when the result strips to empty; non-dict entries are
skipped (test_bedrock_local.py:227-231). -/
def missingItem (item : Json) : Bool :=
  match item with
  | .obj kvs =>
    strStripEmpty (pyOr (pyOr (pyOr (jget kvs "cpt".data) (jget kvs "cptCode".data))
                              (jget kvs "code".data)) (.str []))
  | _ => false

/-- Count the entries of a code list that are missing a code value. -/
def countMissing (l : List Json) : Nat := l.countP missingItem

/-- Probe of a nested `cpt_codes`/`codes` value in the test loop:
`len(code_list)` plus the per-item missing count from iterating it.
Iterating a string yields characters and a dict yields its keys (both
skipped as non-dicts); unsized values raise (`none`). -/
def tbProbeNested : Json → Option (Nat × Nat)
  | .arr l => some (l.length, countMissing l)
  | .str s => some (s.length, 0)
  | .obj kvs => some (kvs.length, 0)
  | _ => none

/-- The probe parse of the test_bedrock_local retry loop (lines 218-248):
entry count and missing-code count of the parsed response.  `none`
models an exception escaping the probe. -/
def tbProbe (s : List Char) : Option (Nat × Nat) :=
  match parseChars s with
  | none => some (0, 0)
  | some p =>
    if ¬ truthy p then some (0, 0)
    else
      match p with
      | .arr l => some (l.length, countMissing l)
      | .obj kvs =>
        match jlookup kvs "cpt_codes".data with
        | some v => tbProbeNested v
        | none =>
          match jlookup kvs "codes".data with
          | some v => tbProbeNested v
          | none => some (0, 0)
      | _ => some (0, 0)

/-- One pass of the test_bedrock_local retry loop: each iteration calls
the service, re-assigns `predicted_codes_text`, skips falsy responses,
probes the rest, and breaks exactly when
`code_count >= min_expected_codes and missing_cpt_codes == 0`
(test_bedrock_local.py:253). -/
def tbGo (svc : Nat → Option String) (minExpected : Nat) :
    Nat → Nat → Option String → LoopOut
  | 0, idx, last => .normal idx last
  | r + 1, idx, _ =>
    match svc idx with
    | none => tbGo svc minExpected r (idx + 1) none
    | some s =>
      if s.data = [] then tbGo svc minExpected r (idx + 1) (some s)
      else
        match tbProbe s.data with
        | none => .exn (idx + 1)
        | some (cnt, miss) =>
          if minExpected ≤ cnt ∧ miss = 0 then .normal (idx + 1) (some s)
          else tbGo svc minExpected r (idx + 1) (some s)

/-- The test_bedrock_local retry loop run from the first attempt. -/
def tbLoop (svc : Nat → Option String) (minExpected maxRetries : Nat) : LoopOut :=
  tbGo svc minExpected maxRetries 0 none

/-- Spec-side acceptance policy (section 4.2 / 8 of the design): a
response is accepted iff it is non-falsy, its probe parse succeeds, the
entry count reaches `minExpected`, and no entry is missing its code. -/
def accepts (minExpected : Nat) (t : Option String) : Bool :=
  match t with
  | none => false
  | some s =>
    if s.data = [] then false
    else
      match tbProbe s.data with
      | none => false
      | some (cnt, miss) => minExpected ≤ cnt ∧ miss = 0

/-- Index of the first accepted attempt, if any, among `0..maxRetries-1`. -/
def firstAccept (svc : Nat → Option String) (minExpected maxRetries : Nat) : Option Nat :=
  (List.range maxRetries).find? (fun i => accepts minExpected (svc i))

/-- Whether an attempt's response cannot raise inside the probe. -/
def probeOk (t : Option String) : Bool :=
  match t with
  | none => true
  | some s => if s.data = [] then true else (tbProbe s.data).isSome

/- ------------------------------------------------------------------
A small backtracking regex engine with Python `re` semantics
(leftmost search, greedy/lazy repetition, lookahead, groups,
IGNORECASE + DOTALL), used to embed the patterns of
`NotesHandler.extract_clinical_notes_from_html`.
------------------------------------------------------------------ -/

/-- Regex abstract syntax for the patterns used by the extractor.  `ch`
stores a lowercase character and matches case-insensitively; `cset`
is a (possibly negated) character set; `star` carries its laziness;
`look` is a zero-width lookahead; `eos` is `$`. -/
inductive RE : Type where
  | eps : RE
  | ch (c : Char) : RE
  | cset (neg : Bool) (cs : List Char) : RE
  | seq (a b : RE) : RE
  | alt (a b : RE) : RE
  | star (lazy : Bool) (a : RE) : RE
  | grp (n : Nat) (a : RE) : RE
  | look (a : RE) : RE
  | eos : RE

/-- Group captures: most recent capture of a group index first. -/
def Caps : Type := List (Nat × List Char)

/-- Size of a pattern, used only to budget matcher fuel. -/
def reSize : RE → Nat
  | .eps => 1
  | .ch _ => 1
  | .cset _ _ => 1
  | .seq a b => reSize a + reSize b + 1
  | .alt a b => reSize a + reSize b + 1
  | .star _ a => reSize a + 1
  | .grp _ a => reSize a + 1
  | .look a => reSize a + 1
  | .eos => 1

/-- Backtracking matcher in continuation-passing style.  `mt fuel re s
caps k` tries to match `re` at the start of `s`, exploring alternatives
in Python's order (an alternation tries its left branch first, a greedy
star tries a longer match first, a lazy star a shorter one), and passes
the remaining input and captures to `k`.  A star iteration must consume
input, as in Python's empty-repeat rule.  Fuel bounds the call depth
and is chosen large enough (see `reMatchAt`) never to be exhausted on
the patterns of this development. -/
def mt : Nat → RE → List Char → Caps → (List Char → Caps → Option (List Char × Caps)) →
    Option (List Char × Caps)
  | 0, _, _, _, _ => none
  | fuel + 1, re, s, caps, k =>
    match re with
    | .eps => k s caps
    | .ch c =>
      match s with
      | [] => none
      | x :: r => if x.toLower = c then k r caps else none
    | .cset neg cs =>
      match s with
      | [] => none
      | x :: r => if (cs.contains x) ≠ neg then k r caps else none
    | .seq a b => mt fuel a s caps (fun s' c' => mt fuel b s' c' k)
    | .alt a b =>
      match mt fuel a s caps k with
      | some res => some res
      | none => mt fuel b s caps k
    | .grp n a =>
      mt fuel a s caps (fun s' c' => k s' ((n, s.take (s.length - s'.length)) :: c'))
    | .look a =>
      match mt fuel a s caps (fun s' c' => some (s', c')) with
      | some _ => k s caps
      | none => none
    | .eos => if s = [] ∨ s = ['\n'] then k s caps else none
    | .star lz a =>
      if lz then
        match k s caps with
        | some res => some res
        | none =>
          mt fuel a s caps (fun s' c' =>
            if s'.length < s.length then mt fuel (.star lz a) s' c' k else none)
      else
        match mt fuel a s caps (fun s' c' =>
            if s'.length < s.length then mt fuel (.star lz a) s' c' k else none) with
        | some res => some res
        | none => k s caps

/-- Try to match `re` at the start of `s`; on success return the
remaining input and the captures. -/
def reMatchAt (re : RE) (s : List Char) : Option (List Char × Caps) :=
  mt (4 * (s.length + 1) + 2 * reSize re + 8) re s [] (fun rest caps => some (rest, caps))

/-- Leftmost search (`re.search`): try each start position in order; on
success return the matched text, the captures and the input after the
match. -/
def reSearch (re : RE) (s : List Char) : Option (List Char × Caps × List Char) :=
  match reMatchAt re s with
  | some (rest, caps) => some (s.take (s.length - rest.length), caps, rest)
  | none =>
    match s with
    | [] => none
    | _ :: t => reSearch re t

/-- Value of a capture group (most recent capture wins, empty if the
group never captured). -/
def capGet (caps : Caps) (n : Nat) : List Char :=
  match List.find? (fun p => p.1 = n) caps with
  | some p => p.2
  | none => []

/-- Non-overlapping leftmost matches (`re.findall`), returning group `g`
of each match (`0` for the whole match).  After an empty match the scan
advances one character, as Python does. -/
def findAll (fuel : Nat) (re : RE) (g : Nat) (s : List Char) : List (List Char) :=
  match fuel with
  | 0 => []
  | fuel + 1 =>
    match reSearch re s with
    | none => []
    | some (matched, caps, rest) =>
      let item := if g = 0 then matched else capGet caps g
      if matched.isEmpty then
        match rest with
        | [] => [item]
        | _ :: t => item :: findAll fuel re g t
      else item :: findAll fuel re g rest

/- ------------------------------------------------------------------
HtmlSectionExtractor: `NotesHandler._clean_html_content` and
`NotesHandler.extract_clinical_notes_from_html` (notes_handler.py).
------------------------------------------------------------------ -/

/-- Scan for the first `>` and return the remainder after it. -/
def tagScan : List Char → Option (List Char)
  | [] => none
  | c :: rest => if c = '>' then some rest else tagScan rest

/-- After a `<`: the tag pattern `<[^>]+>` needs at least one non-`>`
character and then a `>`; returns the remainder after the tag. -/
def tagEnd : List Char → Option (List Char)
  | [] => none
  | c :: rest => if c = '>' then none else tagScan rest

/-- Fuelled core of `re.sub(r'<[^>]+>', ' ', s)`: replace each
non-overlapping leftmost tag with a single space. -/
def stripTagsF : Nat → List Char → List Char
  | 0, l => l
  | fuel + 1, l =>
    match l with
    | [] => []
    | c :: rest =>
      if c = '<' then
        match tagEnd rest with
        | some rest' => ' ' :: stripTagsF fuel rest'
        | none => c :: stripTagsF fuel rest
      else c :: stripTagsF fuel rest

/-- Replace each markup tag with a single space. -/
def stripTags (l : List Char) : List Char := stripTagsF l.length l

/-- Fuelled core of Python `str.replace`: replace every non-overlapping
occurrence of `pat` (nonempty) left to right. -/
def replaceAllF : Nat → List Char → List Char → List Char → List Char
  | 0, _, _, l => l
  | fuel + 1, pat, rep, l =>
    match l with
    | [] => []
    | c :: rest =>
      if pat.isPrefixOf l then rep ++ replaceAllF fuel pat rep (l.drop pat.length)
      else c :: replaceAllF fuel pat rep rest

/-- Python `s.replace(pat, rep)` for a nonempty pattern. -/
def replaceAll (pat rep l : List Char) : List Char := replaceAllF l.length pat rep l

/-- The fixed entity table of `_clean_html_content`, applied in source
order. -/
def htmlEntities : List (List Char × List Char) :=
  [ ("&nbsp;".data, " ".data), ("&amp;".data, "&".data), ("&lt;".data, "<".data)
  , ("&gt;".data, ">".data), ("&quot;".data, "\"".data), ("&#39;".data, "'".data)
  , ("&apos;".data, "'".data) ]

/-- Decode the fixed entity table, in order. -/
def decodeEntities (l : List Char) : List Char :=
  htmlEntities.foldl (fun acc pr => replaceAll pr.1 pr.2 acc) l

/-- Fuelled core of `re.sub(r'\s+', ' ', s)`: collapse each whitespace
run to a single space. -/
def collapseWSF : Nat → List Char → List Char
  | 0, l => l
  | fuel + 1, l =>
    match l with
    | [] => []
    | c :: rest =>
      if isPySpace c then ' ' :: collapseWSF fuel (rest.dropWhile isPySpace)
      else c :: collapseWSF fuel rest

/-- Collapse whitespace runs to single spaces. -/
def collapseWS (l : List Char) : List Char := collapseWSF l.length l

/-- Index of the last `'\n'` inside the leading whitespace run of `l`,
the extent chosen by the greedy `\s*` of `re.sub(r'\n\s*\n', '\n', s)`. -/
def lastNlInRun (l : List Char) : Option Nat :=
  let run := l.takeWhile isPySpace
  (run.reverse.findIdx? (fun c => c = '\n')).map (fun j => run.length - 1 - j)

/-- Fuelled core of `re.sub(r'\n\s*\n', '\n', s)`. -/
def squashNlF : Nat → List Char → List Char
  | 0, l => l
  | fuel + 1, l =>
    match l with
    | [] => []
    | c :: rest =>
      if c = '\n' then
        match lastNlInRun rest with
        | some j => '\n' :: squashNlF fuel (rest.drop (j + 1))
        | none => c :: squashNlF fuel rest
      else c :: squashNlF fuel rest

/-- Replace each blank-line gap `\n\s*\n` with a single newline. -/
def squashNl (l : List Char) : List Char := squashNlF l.length l

/-- Python `s.split('\n')`. -/
def splitNl : List Char → List (List Char)
  | [] => [[]]
  | c :: rest =>
    if c = '\n' then [] :: splitNl rest
    else
      match splitNl rest with
      | [] => [[c]]
      | h :: t => (c :: h) :: t

/-- Join with newline separators (`'\n'.join`). -/
def joinNl : List (List Char) → List Char
  | [] => []
  | [x] => x
  | x :: y :: rest => x ++ '\n' :: joinNl (y :: rest)

/-- Join with single-space separators (`' '.join`). -/
def joinSpace : List (List Char) → List Char
  | [] => []
  | [x] => x
  | x :: y :: rest => x ++ ' ' :: joinSpace (y :: rest)

/-- Strip each line and drop the empty ones (the tail of
`_clean_html_content`). -/
def cleanupLines (l : List Char) : List Char :=
  joinNl (((splitNl l).map pystrip).filter (fun x => x ≠ []))

/-- Embedding of `NotesHandler._clean_html_content`
(notes_handler.py:319-355): falsy input short-circuit, tag removal,
entity decoding, whitespace collapsing, blank-line squashing, and
line cleanup, in source order. -/
def cleanHtml (content : List Char) : List Char :=
  if content = [] then []
  else cleanupLines (squashNl (collapseWS (decodeEntities (stripTags content))))

/-- Fold a list of patterns into nested sequencing. -/
def seqL (l : List RE) : RE := l.foldr .seq .eps

/-- A case-insensitive literal. -/
def rLit (s : String) : RE := seqL (s.data.map (fun c => RE.ch c.toLower))

/-- The class `\s`. -/
def rWS : RE := .cset false [' ', '\t', '\n', '\r', '\x0b', '\x0c']

/-- The class `.` under DOTALL. -/
def rAny : RE := .cset true []

/-- The class `[^c]`. -/
def rNot (c : Char) : RE := .cset true [c]

/-- Greedy `a*`. -/
def starG (a : RE) : RE := .star false a

/-- Lazy `a*?`. -/
def starL (a : RE) : RE := .star true a

/-- Greedy `a+`. -/
def plusG (a : RE) : RE := .seq a (.star false a)

/-- Pattern 1 (notes_handler.py:201): bold Patient label, captured name,
lazy gap, span-wrapped bold Subjective marker, captured body up to a
span-wrapped bold Assessment marker or end. -/
def reP1 : RE := seqL
  [ rLit "<b>patient:", starG rWS, rLit "</b>"
  , .grp 1 (plusG (rNot '<'))
  , starL rAny
  , rLit "<span", starG (rNot '>'), rLit "><b>subjective:</b></span>"
  , .grp 2 (starL rAny)
  , .look (.alt (seqL [rLit "<span", starG (rNot '>'), rLit "><b>assessment:</b></span>"]) .eos) ]

/-- Pattern 2 (notes_handler.py:211): bold HPI label and captured body up
to a bold Objective/Examination/Assessment label or end. -/
def reP2 : RE := seqL
  [ rLit "<b>hpi:", starG rWS, rLit "</b>"
  , .grp 1 (starL rAny)
  , .look (.alt (seqL [rLit "<b>"
                      , .alt (rLit "objective") (.alt (rLit "examination") (rLit "assessment"))
                      , rLit ":"]) .eos) ]

/-- The sub-pattern `(?:<[^>]*>[^<]*)` of Pattern 3. -/
def reTagGap : RE := seqL [rLit "<", starG (rNot '>'), rLit ">", starG (rNot '<')]

/-- Pattern 3 (notes_handler.py:223): keyword-anchored PFPT block. -/
def reP3 : RE := .grp 1 (seqL
  [ rLit "pfpt", starG (rNot '<'), starL reTagGap
  , .alt (seqL [rLit "pelvic", plusG rWS, .alt (rLit "floor") (rLit "pain")])
         (seqL [rLit "physical", plusG rWS, rLit "therapy"])
  , starG (rNot '<'), starL reTagGap
  , .alt (rLit "stimulation") (.alt (rLit "therapy") (rLit "muscles"))
  , starG (rNot '<'), starG reTagGap ])

/-- Pattern 4 (notes_handler.py:235): bold Examination label and captured
body up to a bold Assessment/Plan label or end. -/
def reP4 : RE := seqL
  [ rLit "<b>examination:", starG (rNot '<'), rLit "</b>"
  , .grp 1 (starL rAny)
  , .look (.alt (seqL [rLit "<b>", .alt (rLit "assessment") (rLit "plan"), rLit ":"]) .eos) ]

/-- Pattern 5 (notes_handler.py:247): bold Assessment label and captured
body up to a bold Plan/Treatment label or end. -/
def reP5 : RE := seqL
  [ rLit "<b>assessment:", starG rWS, rLit "</b>"
  , .grp 1 (starL rAny)
  , .look (.alt (seqL [rLit "<b>", .alt (rLit "plan") (rLit "treatment"), rLit ":"]) .eos) ]

/-- Pattern 6 (notes_handler.py:259): bold Procedure Codes label and
captured body up to a table end, any bold label, or end. -/
def reP6 : RE := seqL
  [ rLit "<b>procedure", plusG rWS, rLit "codes:</b>"
  , .grp 1 (starL rAny)
  , .look (.alt (rLit "</table>")
                (.alt (seqL [rLit "<b>", starG (rNot '>'), rLit "</b>"]) .eos)) ]

/-- Pattern 7 (notes_handler.py:271): bold Visit Code label, with the
same terminators as Pattern 6. -/
def reP7 : RE := seqL
  [ rLit "<b>visit", plusG rWS, rLit "code:</b>"
  , .grp 1 (starL rAny)
  , .look (.alt (rLit "</table>")
                (.alt (seqL [rLit "<b>", starG (rNot '>'), rLit "</b>"]) .eos)) ]

/-- The table-cell pattern `<td[^>]*>(.*?)</td>` of the fallback scan
(notes_handler.py:294). -/
def reTd : RE := seqL
  [ rLit "<td", starG (rNot '>'), rLit ">", .grp 1 (starL rAny), rLit "</td>" ]

/-- Append a section under the running clinical content
(`clinical_content += f"\n\n{label}{body}"`, or start it). -/
def addSection (content label body : List Char) : List Char :=
  if content = [] then label ++ body
  else content ++ '\n' :: '\n' :: (label ++ body)

/-- The section-assembly part of `extract_clinical_notes_from_html`
(notes_handler.py:198-280): apply Patterns 1-7 in order and concatenate
the cleaned captures under their labels. -/
def clinicalContent (html : List Char) : List Char :=
  let c1 :=
    match reSearch reP1 html with
    | some (_, caps, _) =>
      "Patient: ".data ++ pystrip (capGet caps 1)
        ++ "\n\nSubjective:\n".data ++ cleanHtml (capGet caps 2)
    | none => []
  let c2 :=
    match reSearch reP2 html with
    | some (_, caps, _) => addSection c1 "HPI:\n".data (cleanHtml (capGet caps 1))
    | none => c1
  let c3 :=
    match findAll (html.length + 1) reP3 1 html with
    | [] => c2
    | ms => addSection c2 "PFPT Details:\n".data (cleanHtml (joinSpace ms))
  let c4 :=
    match reSearch reP4 html with
    | some (_, caps, _) => addSection c3 "Examination:\n".data (cleanHtml (capGet caps 1))
    | none => c3
  let c5 :=
    match reSearch reP5 html with
    | some (_, caps, _) => addSection c4 "Assessment:\n".data (cleanHtml (capGet caps 1))
    | none => c4
  let c6 :=
    match reSearch reP6 html with
    | some (_, caps, _) => addSection c5 "Procedure Codes:\n".data (cleanHtml (capGet caps 1))
    | none => c5
  match reSearch reP7 html with
  | some (_, caps, _) => addSection c6 "Visit Code:\n".data (cleanHtml (capGet caps 1))
  | none => c6

/-- The fixed clinical keyword list of the fallback scan. -/
def clinicalKeywords : List (List Char) :=
  [ "patient".data, "pelvic".data, "pain".data, "therapy".data
  , "stimulation".data, "examination".data, "assessment".data, "pfpt".data ]

/-- Lowercase a string (`str.lower`, ASCII range). -/
def toLowerL (l : List Char) : List Char := l.map Char.toLower

/-- Python `needle in hay`: contiguous substring test. -/
def containsSub (needle : List Char) : List Char → Bool
  | [] => needle.isEmpty
  | c :: rest => needle.isPrefixOf (c :: rest) || containsSub needle rest

/-- The fallback table-cell scan (notes_handler.py:293-301): keep each
cleaned cell longer than 20 characters containing a clinical keyword. -/
def fallbackCells (html : List Char) : List (List Char) :=
  (findAll (html.length + 1) reTd 1 html).filterMap (fun m =>
    let cleaned := pystrip (cleanHtml m)
    if cleaned.length > 20 ∧ clinicalKeywords.any (fun kw => containsSub kw (toLowerL cleaned))
    then some cleaned else none)

/-- The sentinel returned when nothing qualifies. -/
def sentinelNotes : List Char :=
  "No clinical notes found in the provided HTML content".data

/-- Embedding of `extract_clinical_notes_from_html`
(notes_handler.py:176-313): falsy input short-circuit, section
assembly, the `> 100` usability gate, the fallback table-cell scan
capped at 20 cells, and the sentinel. -/
def extractChars (html : List Char) : List Char :=
  if html = [] then []
  else if clinicalContent html ≠ [] ∧ (pystrip (clinicalContent html)).length > 100 then
    pystrip (clinicalContent html)
  else if fallbackCells html ≠ [] then joinNl ((fallbackCells html).take 20)
  else sentinelNotes

/-- String-level wrapper of `extract_clinical_notes_from_html`. -/
def extract_clinical_notes_from_html (s : String) : String :=
  String.mk (extractChars s.data)

/- ------------------------------------------------------------------
Concrete fixtures used by the claims.
------------------------------------------------------------------ -/

/-- A stub response with two complete entries. -/
def respTwo : String := "[\x7b\"code\":\"99213\",\"modifier1\":\"\",\"modifier2\":\"\",\"description\":\"Office visit\"\x7d,\x7b\"code\":\"91122\",\"modifier1\":\"\",\"modifier2\":\"\",\"description\":\"Anorectal manometry\"\x7d]"

/-- A stub response with five entries, all with non-empty codes. -/
def respFive : String := "[\x7b\"code\":\"99213\"\x7d,\x7b\"code\":\"91122\"\x7d,\x7b\"code\":\"90912\"\x7d,\x7b\"code\":\"90913\"\x7d,\x7b\"code\":\"51784\"\x7d]"

/-- A stub response with one entry missing its code field. -/
def respMissing : String := "[\x7b\"modifier1\":\"25\"\x7d]"

/-- The stub service of the acceptance scenario: two codes on the first
call, five complete codes afterwards. -/
def svcTwoThenFive : Nat → Option String :=
  fun i => if i = 0 then some respTwo else some respFive

/-- The stub service that always returns one entry missing its code. -/
def svcAlwaysMissing : Nat → Option String := fun _ => some respMissing

/-- A stub response whose object payload nests a plain string. -/
def respStrNested : String := "\x7b\"cpt_codes\": \"abcdef\"\x7d"

/-- The stub service returning `respStrNested` on every call. -/
def svcStrNested : Nat → Option String := fun _ => some respStrNested

/-- Clinical notes comfortably above the 50-character floor. -/
def notesOk : String :=
  "Patient presents for follow-up of chronic pelvic pain with therapy."

/-- Clinical notes of fewer than 50 characters. -/
def notesShort : String := "Patient seen today for brief follow-up."

end Billing

open Billing

/- ==================================================================
Claim C1.
================================================================== -/

/-- C1: for every clinical-notes input that is empty or whose trimmed
length is below 50 characters, `get_predicted_cpt_codes` returns `None`
immediately and never invokes the prediction service (zero calls). -/
theorem C1_insufficient_input (notes : String) (svc : Nat → Option String)
    (h : notes.data = [] ∨ (pystrip notes.data).length < 50) :
    getPredicted notes svc = (0, .noneR) := by
  unfold getPredicted
  rw [if_pos h]

/-- Witness for C1 at a concrete 39-character note and a service that
would answer if called. -/
theorem C1_insufficient_input_witness :
    getPredicted notesShort svcTwoThenFive = (0, .noneR) :=
  C1_insufficient_input notesShort svcTwoThenFive (by decide)

/- ==================================================================
Loop characterization (shared by C2 and C3).
================================================================== -/

/-- The test_bedrock_local retry loop, started at attempt `idx` with `r`
attempts left, stops at the first accepted attempt; with none, it runs
all attempts and keeps the last response. -/
theorem tbGo_spec (svc : Nat → Option String) (minE : Nat) :
    ∀ (r idx : Nat) (last : Option String),
      (∀ j, j < r → probeOk (svc (idx + j)) = true) →
      tbGo svc minE r idx last =
        match (List.range r).find? (fun j => accepts minE (svc (idx + j))) with
        | some j => .normal (idx + j + 1) (svc (idx + j))
        | none => .normal (idx + r) (if r = 0 then last else svc (idx + r - 1)) := by
  intro r
  induction r with
  | zero => intro idx last _; rfl
  | succ r ih =>
    intro idx last hok
    have hok' : ∀ j, j < r → probeOk (svc ((idx + 1) + j)) = true := by
      intro j hj
      have h := hok (j + 1) (by omega)
      have e : idx + (j + 1) = (idx + 1) + j := by omega
      rwa [e] at h
    have hrange : (List.range (r + 1)).find? (fun j => accepts minE (svc (idx + j)))
        = match accepts minE (svc idx) with
          | true => some 0
          | false => Option.map Nat.succ
              ((List.range r).find? (fun j => accepts minE (svc ((idx + 1) + j)))) := by
      rw [List.range_succ_eq_map, List.find?_cons]
      simp only [Nat.add_zero]
      cases accepts minE (svc idx) with
      | true => rfl
      | false =>
        simp only
        rw [List.find?_map]
        have e : ((fun j => accepts minE (svc (idx + j))) ∘ Nat.succ)
            = fun j => accepts minE (svc ((idx + 1) + j)) := by
          funext j
          simp only [Function.comp]
          have : idx + Nat.succ j = (idx + 1) + j := by omega
          rw [this]
        rw [e]
    have key : ∀ last' : Option String, last' = svc idx →
        accepts minE (svc idx) = false →
        tbGo svc minE r (idx + 1) last' =
          match (List.range (r + 1)).find? (fun j => accepts minE (svc (idx + j))) with
          | some j => LoopOut.normal (idx + j + 1) (svc (idx + j))
          | none => LoopOut.normal (idx + (r + 1))
              (if r + 1 = 0 then last else svc (idx + (r + 1) - 1)) := by
      intro last' hl hacc
      rw [hrange, hacc]
      rw [ih (idx + 1) last' hok']
      cases hfind : (List.range r).find? (fun j => accepts minE (svc ((idx + 1) + j))) with
      | some j =>
        simp only [Option.map_some']
        have e1 : (idx + 1) + j = idx + (j + 1) := by omega
        rw [e1]
      | none =>
        simp only [Option.map_none']
        cases r with
        | zero => simp [hl]
        | succ r' =>
          have e1 : (idx + 1) + (r' + 1) = idx + (r' + 1 + 1) := by omega
          have e2 : (idx + 1) + (r' + 1) - 1 = idx + (r' + 1 + 1) - 1 := by omega
          simp only [e1, e2]
          rfl
    cases hsvc : svc idx with
    | none =>
      have hacc : accepts minE (svc idx) = false := by rw [hsvc]; rfl
      have hstep : tbGo svc minE (r + 1) idx last = tbGo svc minE r (idx + 1) none := by
        simp only [tbGo, hsvc]
      rw [hstep, key none hsvc.symm hacc]
    | some s =>
      by_cases hse : s.data = []
      · have hacc : accepts minE (svc idx) = false := by
          rw [hsvc]; simp [accepts, hse]
        have hstep : tbGo svc minE (r + 1) idx last = tbGo svc minE r (idx + 1) (some s) := by
          simp only [tbGo, hsvc, hse, if_pos]
        rw [hstep, key (some s) hsvc.symm hacc]
      · cases hp : tbProbe s.data with
        | none =>
          exfalso
          have h0 := hok 0 (by omega)
          rw [Nat.add_zero, hsvc] at h0
          simp [probeOk, hse, hp] at h0
        | some cm =>
          obtain ⟨cnt, miss⟩ := cm
          by_cases hacc : minE ≤ cnt ∧ miss = 0
          · have haccT : accepts minE (svc idx) = true := by
              rw [hsvc]
              simp [accepts, hse, hp, hacc.1, hacc.2]
            have hstep : tbGo svc minE (r + 1) idx last = .normal (idx + 1) (some s) := by
              simp [tbGo, hsvc, hse, hp, hacc.1, hacc.2]
            rw [hstep, hrange, haccT]
            simp only [Nat.add_zero, hsvc]
          · have haccF : accepts minE (svc idx) = false := by
              rw [hsvc]
              simp only [accepts, hse, if_neg, hp]
              simpa using hacc
            have hstep : tbGo svc minE (r + 1) idx last = tbGo svc minE r (idx + 1) (some s) := by
              simp only [tbGo, hsvc, hse, hp, if_neg hacc]
              simp
            rw [hstep, key (some s) hsvc.symm haccF]

/-- The loop from the start: stop at the first accepted attempt, or run
all `maxRetries` attempts and keep the last response. -/
theorem tbLoop_spec (svc : Nat → Option String) (minE maxRetries : Nat)
    (hm : 1 ≤ maxRetries)
    (hok : ∀ j, j < maxRetries → probeOk (svc j) = true) :
    tbLoop svc minE maxRetries =
      match firstAccept svc minE maxRetries with
      | some i => .normal (i + 1) (svc i)
      | none => .normal maxRetries (svc (maxRetries - 1)) := by
  have h := tbGo_spec svc minE maxRetries 0 none (by simpa using hok)
  have e : (fun j => accepts minE (svc (0 + j))) = fun j => accepts minE (svc j) := by
    funext j
    rw [Nat.zero_add]
  rw [tbLoop, h, e]
  unfold firstAccept
  cases hf : (List.range maxRetries).find? (fun j => accepts minE (svc j)) with
  | some j => simp
  | none =>
    simp only
    rw [if_neg (by omega)]
    rw [Nat.zero_add]

/- ==================================================================
Claim C2.
================================================================== -/

/-- C2: the test-loop acceptance policy — the loop stops at the first
attempt whose probe-parsed entry count reaches `minExpectedCodes` with
zero entries missing a code, and otherwise retries; with the
two-codes-then-five-codes stub, `minExpectedCodes = 4` and
`maxRetries = 3`, exactly 2 calls are made and the five-code response
is returned. -/
theorem C2_acceptance_policy :
    (∀ (svc : Nat → Option String) (minE maxRetries : Nat),
       1 ≤ maxRetries → (∀ j, j < maxRetries → probeOk (svc j) = true) →
       tbLoop svc minE maxRetries =
         match firstAccept svc minE maxRetries with
         | some i => .normal (i + 1) (svc i)
         | none => .normal maxRetries (svc (maxRetries - 1)))
    ∧ accepts 4 (some respTwo) = false
    ∧ accepts 4 (some respFive) = true
    ∧ firstAccept svcTwoThenFive 4 3 = some 1
    ∧ tbLoop svcTwoThenFive 4 3 = .normal 2 (some respFive) :=
  ⟨tbLoop_spec, by decide, by decide, by decide, by decide⟩

/-- Witness for C2 applying the characterization at the concrete stub. -/
theorem C2_acceptance_policy_witness :
    tbLoop svcTwoThenFive 4 3 =
      match firstAccept svcTwoThenFive 4 3 with
      | some i => .normal (i + 1) (svcTwoThenFive i)
      | none => .normal 3 (svcTwoThenFive 2) :=
  C2_acceptance_policy.1 svcTwoThenFive 4 3 (by omega) (by decide)

/- ==================================================================
Claim C3.
================================================================== -/

/-- Whether a response is non-falsy and probe-parses with at least one
entry missing its code value. -/
def hasMissing (t : Option String) : Bool :=
  match t with
  | none => false
  | some s =>
    if s.data = [] then false
    else
      match tbProbe s.data with
      | none => false
      | some cm => 1 ≤ cm.2

/-- Whether a response is non-falsy and probe-parses to fewer than the 4
codes the cpt_population loop expects. -/
def cpDeficient (t : Option String) : Bool :=
  match t with
  | none => false
  | some s =>
    if s.data = [] then false
    else
      match cpProbe s.data with
      | none => false
      | some cnt => cnt < 4

/-- A response with a missing code cannot raise in the probe. -/
theorem hasMissing_probeOk (t : Option String) (h : hasMissing t = true) :
    probeOk t = true := by
  match t with
  | none => rfl
  | some s =>
    simp only [hasMissing] at h
    simp only [probeOk]
    by_cases hse : s.data = []
    · simp [hse]
    · rw [if_neg hse] at h ⊢
      cases hp : tbProbe s.data with
      | none => rw [hp] at h; simp at h
      | some cm => simp [hp]

/-- A response with a missing code is never accepted. -/
theorem hasMissing_not_accepts (minE : Nat) (t : Option String)
    (h : hasMissing t = true) : accepts minE t = false := by
  match t with
  | none => rfl
  | some s =>
    simp only [hasMissing] at h
    simp only [accepts]
    by_cases hse : s.data = []
    · simp [hse]
    · rw [if_neg hse] at h ⊢
      cases hp : tbProbe s.data with
      | none => rfl
      | some cm =>
        obtain ⟨cnt, miss⟩ := cm
        rw [hp] at h
        simp only [decide_eq_true_eq] at h
        simp only [decide_eq_false_iff_not]
        rintro ⟨-, h0⟩
        omega

/-- A deficient attempt makes the cpt_population loop retry, keeping the
attempt's response as the latest text. -/
theorem cpGo_deficient_step (svc : Nat → Option String) (r idx : Nat)
    (last : Option String) (h : cpDeficient (svc idx) = true) :
    cpGo svc (r + 1) idx last = cpGo svc r (idx + 1) (svc idx) := by
  cases hs : svc idx with
  | none => rw [hs] at h; simp [cpDeficient] at h
  | some s =>
    rw [hs] at h
    simp only [cpDeficient] at h
    by_cases hse : s.data = []
    · rw [if_pos hse] at h; simp at h
    · rw [if_neg hse] at h
      cases hp : cpProbe s.data with
      | none => rw [hp] at h; simp at h
      | some cnt =>
        rw [hp] at h
        simp only [decide_eq_true_eq] at h
        simp only [cpGo, hs]
        rw [if_neg hse]
        simp only [hp]
        rw [if_neg (by omega)]

/-- C3: when every attempt is deficient (for example, a stub always
returning one entry missing its code), both retry loops perform exactly
`maxRetries = 3` service calls and keep only the last attempt's raw
response. -/
theorem C3_retries_exhausted_keep_last :
    (∀ (svc : Nat → Option String) (minE : Nat),
       (∀ j, j < 3 → hasMissing (svc j) = true) →
       tbLoop svc minE 3 = .normal 3 (svc 2))
    ∧ (∀ svc : Nat → Option String,
       (∀ j, j < 3 → cpDeficient (svc j) = true) →
       runLoopCP svc 3 = .normal 3 (svc 2))
    ∧ tbProbe respMissing.data = some (1, 1)
    ∧ tbLoop svcAlwaysMissing 4 3 = .normal 3 (some respMissing)
    ∧ runLoopCP svcAlwaysMissing 3 = .normal 3 (some respMissing) := by
  refine ⟨?_, ?_, by decide, by decide, by decide⟩
  · intro svc minE h
    have hok : ∀ j, j < 3 → probeOk (svc j) = true :=
      fun j hj => hasMissing_probeOk _ (h j hj)
    have hfa : firstAccept svc minE 3 = none := by
      unfold firstAccept
      rw [List.find?_eq_none]
      intro j hj
      have hj3 : j < 3 := by simpa [List.mem_range] using hj
      simp [hasMissing_not_accepts minE (svc j) (h j hj3)]
    rw [tbLoop_spec svc minE 3 (by omega) hok, hfa]
  · intro svc h
    have h0 : cpGo svc 3 0 none = cpGo svc 2 1 (svc 0) :=
      cpGo_deficient_step svc 2 0 none (h 0 (by omega))
    have h1 : cpGo svc 2 1 (svc 0) = cpGo svc 1 2 (svc 1) :=
      cpGo_deficient_step svc 1 1 (svc 0) (h 1 (by omega))
    have h2 : cpGo svc 1 2 (svc 1) = cpGo svc 0 3 (svc 2) :=
      cpGo_deficient_step svc 0 2 (svc 1) (h 2 (by omega))
    rw [runLoopCP, h0, h1, h2]
    rfl

/-- Witness for C3 at the always-missing stub. -/
theorem C3_retries_exhausted_keep_last_witness :
    tbLoop svcAlwaysMissing 4 3 = .normal 3 (svcAlwaysMissing 2)
    ∧ runLoopCP svcAlwaysMissing 3 = .normal 3 (svcAlwaysMissing 2) :=
  ⟨C3_retries_exhausted_keep_last.1 svcAlwaysMissing 4 (by decide),
   C3_retries_exhausted_keep_last.2.1 svcAlwaysMissing (by decide)⟩

/- ==================================================================
Claim C7.
================================================================== -/

/-- C7: the normalizer resolves the code by checking `cpt`, then
`cptCode`, then `code`, taking the first truthy value and defaulting to
the empty string, with `modifier1`/`modifier2`/`description` defaulting
to the empty string; in particular a `\x7b"cptCode":"91122"\x7d` entry
normalizes to code `91122` with empty remaining fields. -/
theorem C7_normalizer_key_order :
    (∀ kvs, truthy (jget kvs "cpt".data) = true →
       (convertItem kvs).code = jget kvs "cpt".data)
    ∧ (∀ kvs, truthy (jget kvs "cpt".data) = false →
         truthy (jget kvs "cptCode".data) = true →
         (convertItem kvs).code = jget kvs "cptCode".data)
    ∧ (∀ kvs, truthy (jget kvs "cpt".data) = false →
         truthy (jget kvs "cptCode".data) = false →
         truthy (jget kvs "code".data) = true →
         (convertItem kvs).code = jget kvs "code".data)
    ∧ (∀ kvs, truthy (jget kvs "cpt".data) = false →
         truthy (jget kvs "cptCode".data) = false →
         truthy (jget kvs "code".data) = false →
         (convertItem kvs).code = .str [])
    ∧ (∀ kvs, jlookup kvs "modifier1".data = none →
         (convertItem kvs).modifier1 = .str [])
    ∧ (∀ kvs, jlookup kvs "modifier2".data = none →
         (convertItem kvs).modifier2 = .str [])
    ∧ (∀ kvs, jlookup kvs "description".data = none →
         (convertItem kvs).description = .str [])
    ∧ convertAll [Json.obj [("cptCode".data, Json.str "91122".data)]] =
        some [⟨Json.str "91122".data, .str [], .str [], .str []⟩] := by
  refine ⟨?_, ?_, ?_, ?_, ?_, ?_, ?_, rfl⟩
  · intro kvs h1
    simp [convertItem, pyOr, h1]
  · intro kvs h1 h2
    simp [convertItem, pyOr, h1, h2]
  · intro kvs h1 h2 h3
    simp [convertItem, pyOr, h1, h2, h3]
  · intro kvs h1 h2 h3
    simp [convertItem, pyOr, h1, h2, h3]
  · intro kvs h
    simp [convertItem, jgetD, h]
  · intro kvs h
    simp [convertItem, jgetD, h]
  · intro kvs h
    simp [convertItem, jgetD, h]

/-- Witness for C7: concrete instances exercising each resolution step. -/
theorem C7_normalizer_key_order_witness :
    (convertItem [("cpt".data, Json.str "11111".data),
                  ("cptCode".data, Json.str "22222".data)]).code = Json.str "11111".data
    ∧ (convertItem [("cpt".data, Json.str []),
                    ("cptCode".data, Json.str "22222".data)]).code = Json.str "22222".data
    ∧ (convertItem [("code".data, Json.str "33333".data)]).code = Json.str "33333".data
    ∧ (convertItem []).code = Json.str []
    ∧ (convertItem []).modifier1 = Json.str [] :=
  ⟨C7_normalizer_key_order.1 _ rfl,
   C7_normalizer_key_order.2.1 _ rfl rfl,
   C7_normalizer_key_order.2.2.1 _ rfl rfl rfl,
   C7_normalizer_key_order.2.2.2.1 _ rfl rfl rfl,
   C7_normalizer_key_order.2.2.2.2.1 _ rfl⟩

/- ==================================================================
Claim C4.
================================================================== -/

/-- The well-formed single-entry array literal of the round-trip claim. -/
def c4lit : String := "[\x7b\"code\":\"99213\",\"modifier1\":\"25\",\"modifier2\":\"\",\"description\":\"Office visit\"\x7d]"

/-- The characters of `c4lit` strictly between the brackets. -/
def c4mid : String := "\x7b\"code\":\"99213\",\"modifier1\":\"25\",\"modifier2\":\"\",\"description\":\"Office visit\"\x7d"

/-- The decoded entry of `c4lit`. -/
def c4entry : Json :=
  .obj [ ("code".data, .str "99213".data)
       , ("modifier1".data, .str "25".data)
       , ("modifier2".data, .str [])
       , ("description".data, .str "Office visit".data) ]

/-- Dropping a prefix predicate distributes over an append whose right
part starts with a failing element. -/
theorem dropWhile_append_flush (p : Char → Bool) (a b : List Char)
    (hb : b.dropWhile p = b) : (a ++ b).dropWhile p = a.dropWhile p ++ b := by
  rw [List.dropWhile_append]
  by_cases h : (a.dropWhile p).isEmpty
  · rw [if_pos h, hb]
    have he : a.dropWhile p = [] := by simpa using h
    rw [he, List.nil_append]
  · rw [if_neg h]

/-- Stripping around a block with non-space endpoints leaves the block
intact. -/
theorem pystrip_sandwich (pre mid post : List Char) (c d : Char)
    (hc : isPySpace c = false) (hd : isPySpace d = false) :
    pystrip (pre ++ (c :: mid ++ [d]) ++ post) =
      pre.dropWhile isPySpace ++ (c :: mid ++ [d])
        ++ (post.reverse.dropWhile isPySpace).reverse := by
  unfold pystrip
  have h1 : (pre ++ (c :: mid ++ [d]) ++ post).dropWhile isPySpace
      = pre.dropWhile isPySpace ++ ((c :: mid ++ [d]) ++ post) := by
    rw [List.append_assoc]
    apply dropWhile_append_flush
    rw [show (c :: mid ++ [d]) ++ post = c :: (mid ++ [d] ++ post) by simp]
    rw [List.dropWhile_cons, if_neg (by simp [hc])]
  rw [h1]
  have h2 : (pre.dropWhile isPySpace ++ ((c :: mid ++ [d]) ++ post)).reverse
      = post.reverse ++ ((c :: mid ++ [d]).reverse ++ (pre.dropWhile isPySpace).reverse) := by
    simp [List.reverse_append, List.append_assoc]
  rw [h2]
  have h3 : (post.reverse ++ ((c :: mid ++ [d]).reverse
        ++ (pre.dropWhile isPySpace).reverse)).dropWhile isPySpace
      = post.reverse.dropWhile isPySpace ++ ((c :: mid ++ [d]).reverse
        ++ (pre.dropWhile isPySpace).reverse) := by
    apply dropWhile_append_flush
    rw [show (c :: mid ++ [d]).reverse = d :: (mid.reverse ++ [c]) by simp]
    rw [List.cons_append, List.dropWhile_cons, if_neg (by simp [hd])]
  rw [h3]
  simp [List.reverse_append, List.append_assoc]

/-- The lazy tail of the bracket regex stops at the first closer after
the opener. -/
theorem spanTo_sandwich (mid rest : List Char) (c : Char) (h : c ∉ mid) :
    spanTo c (mid ++ c :: rest) = some (mid ++ [c]) := by
  induction mid with
  | nil => simp [spanTo]
  | cons x xs ih =>
    have hx : ¬ x = c := fun he => h (he ▸ List.mem_cons_self x xs)
    have htl : c ∉ xs := fun hm => h (List.mem_cons_of_mem x hm)
    simp only [List.cons_append, spanTo, if_neg hx]
    rw [show xs.append (c :: rest) = xs ++ c :: rest from rfl, ih htl]
    rfl

/-- The leftmost-lazy bracket search finds exactly an embedded bracketed
block whenever no opener occurs before it and no closer inside it. -/
theorem firstSpan_sandwich (pre mid post : List Char)
    (h1 : '[' ∉ pre) (h2 : ']' ∉ mid) :
    firstSpan '[' ']' (pre ++ ('[' :: mid ++ [']']) ++ post)
      = some ('[' :: mid ++ [']']) := by
  induction pre with
  | nil =>
    rw [List.nil_append]
    have e : ('[' :: mid ++ [']']) ++ post = '[' :: (mid ++ ']' :: post) := by simp
    rw [e]
    simp only [firstSpan, if_pos rfl]
    rw [spanTo_sandwich mid post ']' h2]
    simp
  | cons x xs ih =>
    have hx : ¬ x = '[' := fun he => h1 (he ▸ List.mem_cons_self x xs)
    have htl : '[' ∉ xs := fun hm => h1 (List.mem_cons_of_mem x hm)
    simp only [List.cons_append, firstSpan, if_neg hx]
    exact ih htl

/-- C4 counterexample: with prose containing a `[` before the array, the
non-greedy bracket regex matches the earlier bracket pair, so the parse
yields an empty array instead of the embedded entry: the round trip
fails for arbitrary prose. -/
theorem C4_counterexample :
    parse_json_response ("Results: [] " ++ c4lit ++ " done") = some (Json.arr [])
    ∧ Json.arr [] ≠ Json.arr [c4entry] := by
  constructor
  · rfl
  · intro hEq
    simp [c4entry] at hEq

/-- C4 amended: for every prose pair around the single-entry array
literal where the preceding prose contains no `[` character, the parse
locates exactly the literal and decodes it to the single entry with
code `99213`. -/
theorem C4_parse_embedded_array (pre post : List Char) (h : '[' ∉ pre) :
    parseChars (pre ++ c4lit.data ++ post) = some (Json.arr [c4entry]) := by
  have hlit : c4lit.data = '[' :: c4mid.data ++ [']'] := by decide
  have hne : ¬ (pre ++ c4lit.data ++ post = []) := by
    rw [hlit]
    simp
  unfold parseChars
  rw [if_neg hne, hlit]
  rw [pystrip_sandwich pre c4mid.data post '[' ']' (by decide) (by decide)]
  have hpre' : '[' ∉ pre.dropWhile isPySpace :=
    fun hm => h ((List.dropWhile_sublist isPySpace).subset hm)
  have hmid : ']' ∉ c4mid.data := by decide
  rw [firstSpan_sandwich (pre.dropWhile isPySpace)
        c4mid.data ((post.reverse.dropWhile isPySpace).reverse) hpre' hmid]
  show jsonParse ('[' :: c4mid.data ++ [']']) = some (Json.arr [c4entry])
  rw [← hlit]
  rfl

/-- Witness for C4 at concrete bracket-free leading prose. -/
theorem C4_parse_embedded_array_witness :
    parseChars ("Here are the predicted codes: ".data ++ c4lit.data ++ " Let me know.".data)
      = some (Json.arr [c4entry]) :=
  C4_parse_embedded_array "Here are the predicted codes: ".data " Let me know.".data (by decide)

/- ==================================================================
Claim C9.
================================================================== -/

/-- The shape asserted by claim C9: the result is `None` or a non-empty
list (of records, or a verbatim non-empty list payload). -/
def noneOrNonemptyList : PredOut → Bool
  | .noneR => true
  | .records rs => !rs.isEmpty
  | .rawVal (.arr l) => !l.isEmpty
  | .rawVal _ => false

/-- Non-degeneracy of a prediction result: `None`, a non-empty record
list, or a truthy verbatim value. -/
def resultNonDegenerate : PredOut → Bool
  | .noneR => true
  | .records rs => !rs.isEmpty
  | .rawVal v => truthy v

/-- C9 counterexample: with sufficient notes and a service answering
`\x7b"cpt_codes": "abcdef"\x7d`, `get_predicted_cpt_codes` accepts on the
first call and returns the nested *string* verbatim — neither `None`
nor a list of coding records. -/
theorem C9_counterexample :
    getPredicted notesOk svcStrNested = (1, .rawVal (Json.str "abcdef".data))
    ∧ noneOrNonemptyList (.rawVal (Json.str "abcdef".data)) = false :=
  ⟨rfl, rfl⟩

/-- Results of the nested-value gate are never degenerate. -/
theorem finishRaw_nondegenerate (v : Json) :
    resultNonDegenerate (finishRaw v) = true := by
  unfold finishRaw
  by_cases hv : truthy v
  · rw [if_neg (by simp [hv])]
    cases hl : pyLen v with
    | none => rfl
    | some n =>
      by_cases hn : n > 0
      · simp [hn, resultNonDegenerate, hv]
      · simp [hn, resultNonDegenerate]
  · rw [if_pos (by simp [hv])]
    rfl

/-- Results of the direct-array branch are never degenerate. -/
theorem finalizeArr_nondegenerate (items : List Json) :
    resultNonDegenerate (finalizeArr items) = true := by
  unfold finalizeArr
  match hconv : convertAll items with
  | none => rfl
  | some recs =>
    simp only
    by_cases hg : (!recs.isEmpty) = true ∧ recs.length > 0
    · rw [if_pos hg]
      simpa [resultNonDegenerate] using hg.1
    · rw [if_neg hg]
      rfl

/-- Results of the object branch are never degenerate. -/
theorem finalizeObj_nondegenerate (kvs : List (List Char × Json)) :
    resultNonDegenerate (finalizeObj kvs) = true := by
  unfold finalizeObj
  match jlookup kvs ("cpt_codes".data) with
  | some v => exact finishRaw_nondegenerate v
  | none =>
    match jlookup kvs ("codes".data) with
    | some v => exact finishRaw_nondegenerate v
    | none => rfl

/-- Results of `finalize` are never degenerate: `None`, a non-empty
record list, or a truthy verbatim value. -/
theorem finalize_nondegenerate (p : Option Json) :
    resultNonDegenerate (finalize p) = true := by
  match p with
  | none => rfl
  | some p =>
    show resultNonDegenerate (finalizeVal p) = true
    unfold finalizeVal
    by_cases hp : truthy p
    · rw [if_neg (by simp [hp])]
      match p with
      | .null | .bool _ | .num _ | .str _ => rfl
      | .arr items => exact finalizeArr_nondegenerate items
      | .obj kvs => exact finalizeObj_nondegenerate kvs
    · rw [if_pos (by simp [hp])]
      rfl

/-- C9 amended: the prediction step never returns an empty or falsy
payload — its result is `None`, a non-empty record list, or a truthy
verbatim nested value (which need not be a list); zero-entry payloads
surface as `None`. -/
theorem C9_no_empty_results :
    (∀ (notes : String) (svc : Nat → Option String),
       resultNonDegenerate (getPredicted notes svc).2 = true)
    ∧ finalize (some (Json.arr [])) = .noneR
    ∧ finalize none = .noneR
    ∧ finalize (some (Json.obj [("cpt_codes".data, Json.arr [])])) = .noneR := by
  refine ⟨?_, rfl, rfl, rfl⟩
  intro notes svc
  unfold getPredicted
  by_cases h : notes.data = [] ∨ (pystrip notes.data).length < 50
  · rw [if_pos h]
    rfl
  · rw [if_neg h]
    match runLoopCP svc 3 with
    | .exn c => rfl
    | .normal c last =>
      show resultNonDegenerate (afterLoop c last).2 = true
      match last with
      | none => rfl
      | some s =>
        show resultNonDegenerate
          (if s.data = [] then (c, PredOut.noneR)
           else (c, finalize (parseChars s.data))).2 = true
        by_cases hs : s.data = []
        · rw [if_pos hs]
          rfl
        · rw [if_neg hs]
          exact finalize_nondegenerate (parseChars s.data)


/- ==================================================================
Claim C10.
================================================================== -/

/-- The raw entry `\x7b"cpt": "91122"\x7d` used to exhibit verbatim
pass-through. -/
def cptOnlyKvs : List (List Char × Json) := [("cpt".data, Json.str "91122".data)]

/-- C10: when the parsed payload is an object with a `cpt_codes` or
`codes` key, the nested entries are returned verbatim — no key
remapping and no defaults; a `cpt`-keyed entry keeps `cpt` and gains no
`code`/`modifier1` field. -/
theorem C10_object_payload_verbatim :
    (∀ entries : List Json, entries ≠ [] →
       finalize (some (Json.obj [("cpt_codes".data, Json.arr entries)])) =
         .rawVal (Json.arr entries))
    ∧ (∀ entries : List Json, entries ≠ [] →
       finalize (some (Json.obj [("codes".data, Json.arr entries)])) =
         .rawVal (Json.arr entries))
    ∧ finalize (some (Json.obj [("cpt_codes".data, Json.arr [Json.obj cptOnlyKvs])])) =
        .rawVal (Json.arr [Json.obj cptOnlyKvs])
    ∧ jlookup cptOnlyKvs "code".data = none
    ∧ jlookup cptOnlyKvs "modifier1".data = none := by
  refine ⟨?_, ?_, rfl, rfl, rfl⟩
  · intro entries h
    have hne : entries.isEmpty = false := by simpa using h
    simp [finalize, finalizeVal, finalizeObj, truthy, jlookup, finishRaw, pyLen,
          hne, List.length_pos, h]
  · intro entries h
    have hne : entries.isEmpty = false := by simpa using h
    simp [finalize, finalizeVal, finalizeObj, truthy, jlookup, finishRaw, pyLen,
          hne, List.length_pos, h]

/-- Witness for C10 at the concrete one-entry payload. -/
theorem C10_object_payload_verbatim_witness :
    finalize (some (Json.obj [("codes".data, Json.arr [Json.obj cptOnlyKvs])])) =
      .rawVal (Json.arr [Json.obj cptOnlyKvs]) :=
  C10_object_payload_verbatim.2.1 [Json.obj cptOnlyKvs] (by simp)

/- ==================================================================
Claim C5.
================================================================== -/

/-- C5 counterexample: on the empty string the extractor short-circuits
(notes_handler.py:189) and returns the empty string, not the sentinel. -/
theorem C5_counterexample :
    extractChars [] = [] ∧ ([] : List Char) ≠ sentinelNotes :=
  ⟨rfl, by decide⟩

/-- C5 amended: `extract("")` returns the empty string; the sentinel is
produced only for non-empty inputs with no extractable content, such as
`"x"`. -/
theorem C5_empty_input :
    extract_clinical_notes_from_html "" = ""
    ∧ extract_clinical_notes_from_html "x" = String.mk sentinelNotes := by
  exact ⟨by decide, by decide⟩

/- ==================================================================
Claim C6.
================================================================== -/

/-- An input with a well-formed bare Subjective/Assessment pair. -/
def htmlPairOnly : String := "<b>Subjective:</b> x <b>Assessment:</b> y"

/-- An input matching the extractor's Pattern 1 (bold Patient label and
span-wrapped bold Subjective/Assessment markers) with entity-free
content above the usability bar. -/
def htmlPatientSample : String := "<b>Patient: </b>John Doe<span><b>Subjective:</b></span> patient reports steady improvement in chronic lower back discomfort with daily stretching and walking routines over recent weeks <span><b>Assessment:</b></span>stable"

/-- C6 counterexample: an input holding a well-formed
`<b>Subjective:</b>...<b>Assessment:</b>` pair for which the extractor
returns the sentinel, which does not contain the word "Subjective" —
the bare pair does not trigger the Subjective capture (Pattern 1 also
requires a bold Patient label and span-wrapped markers). -/
theorem C6_counterexample :
    containsSub "<b>Subjective:</b>".data htmlPairOnly.data = true
    ∧ containsSub "<b>Assessment:</b>".data htmlPairOnly.data = true
    ∧ extractChars htmlPairOnly.data = sentinelNotes
    ∧ containsSub "Subjective".data sentinelNotes = false :=
  ⟨by decide, by decide, by decide, by decide⟩

/-- C6 amended: a Subjective section is captured only by Pattern 1; on a
representative Pattern-1 input with tag-free, entity-free section
content the output contains "Subjective" and no raw `<`/`>` markup
survives. -/
theorem C6_pattern1_extraction :
    containsSub "<b>Subjective:</b>".data htmlPatientSample.data = true
    ∧ containsSub "<b>Assessment:</b>".data htmlPatientSample.data = true
    ∧ containsSub "Subjective".data (extractChars htmlPatientSample.data) = true
    ∧ (extractChars htmlPatientSample.data).any (fun c => c = '<' || c = '>') = false :=
  ⟨by decide, by decide, by decide, by decide⟩

/- ==================================================================
Claim C8.
================================================================== -/

/-- An input whose combined extracted section text has trimmed length of
exactly 100 characters. -/
def htmlHundred : String := "<b>Assessment:</b>aaaaaaaaaaaaaaaaaaaaaaaaaaaaaaaaaaaaaaaaaaaaaaaaaaaaaaaaaaaaaaaaaaaaaaaaaaaaaaaaaaaaaaaa"

/-- An input whose combined extracted section text is well above 100
characters. -/
def htmlLong : String := "<b>Assessment:</b>aaaaaaaaaaaaaaaaaaaaaaaaaaaaaaaaaaaaaaaaaaaaaaaaaaaaaaaaaaaaaaaaaaaaaaaaaaaaaaaaaaaaaaaaaaaaaaaaaaaaaaaaaaaaaaaaaaaaaaaa"

/-- C8 counterexample: at trimmed length exactly 100 the `> 100` gate
(notes_handler.py:283) fails, so the extractor falls through to the
fallback scan and returns the sentinel instead of the extracted text. -/
theorem C8_counterexample :
    (pystrip (clinicalContent htmlHundred.data)).length = 100
    ∧ extractChars htmlHundred.data = sentinelNotes
    ∧ sentinelNotes ≠ pystrip (clinicalContent htmlHundred.data) :=
  ⟨by decide, by decide, by decide⟩

/-- C8 amended: whenever the combined extracted section text has trimmed
length strictly greater than 100, the extractor returns that trimmed
text directly, bypassing the fallback table-cell scan. -/
theorem C8_long_content_returned (html : List Char)
    (h : 100 < (pystrip (clinicalContent html)).length) :
    extractChars html = pystrip (clinicalContent html) := by
  have hnil : ¬ (html = []) := by
    intro he
    rw [he] at h
    have hc : clinicalContent [] = [] := by decide
    rw [hc] at h
    simp [pystrip] at h
  have hcne : clinicalContent html ≠ [] := by
    intro he
    rw [he] at h
    simp [pystrip] at h
  unfold extractChars
  rw [if_neg hnil, if_pos ⟨hcne, h⟩]

/-- Witness for C8 at a concrete input with 132 characters of extracted
content. -/
theorem C8_long_content_returned_witness :
    extractChars htmlLong.data = pystrip (clinicalContent htmlLong.data) :=
  C8_long_content_returned htmlLong.data (by decide)
